import Mathlib

/-!
Verification development for the CAG POS back-office (Fastify/MySQL API
plus its Webflow dashboard widget).

The API source is shallowly embedded here: every definition mirrors a
function of the server file (or of the dashboard widget where noted),
with JavaScript values modelled by the inductive type `JsVal`, MySQL
effects modelled by explicit state/row lists, and the external bcrypt /
JWT / SQL services modelled by explicit oracle parameters.  Monetary
amounts are modelled by `Rat` (the spec promises only ordinary decimal
arithmetic, no float-rounding guarantees).
-/

/-- Model of a JavaScript value as far as the role / body / query data of
this API needs: null (also standing for `undefined`), booleans, numbers
(the integral ones that occur in this API), strings, arrays and plain
objects (ordered key/value lists, as JS object keys are ordered). -/
inductive JsVal where
  | null : JsVal
  | bool : Bool → JsVal
  | num : Int → JsVal
  | str : String → JsVal
  | arr : List JsVal → JsVal
  | obj : List (String × JsVal) → JsVal

/-- Model of the JavaScript whitespace class used by `String.prototype.trim`
and by the regexp class `\s` (ASCII part plus NBSP and BOM, the forms that
can realistically occur in this API's data). -/
def jsIsWs (c : Char) : Bool :=
  c == ' ' || c == '\t' || c == '\n' || c == '\r' || c == '\x0b' || c == '\x0c' ||
    c == '\u00A0' || c == '\uFEFF'

/-- Character class of the separator regexp `[,\s]+` used by `parseRoles`. -/
def isSep (c : Char) : Bool :=
  c == ',' || jsIsWs c

/-- List-level model of `String.prototype.trim`: drop leading and trailing
whitespace. -/
def jsTrimList (l : List Char) : List Char :=
  ((l.dropWhile jsIsWs).reverse.dropWhile jsIsWs).reverse

/-- Model of `String.prototype.trim`. -/
def jsTrim (s : String) : String :=
  String.mk (jsTrimList s.data)

/-- Model of `String.prototype.split(/[,\s]+/)`: split on maximal runs of
separator characters; a leading or trailing run contributes an empty
token, as in JavaScript. `acc` holds the characters of the current token
in reverse; `inSep` records that the previous character belonged to a
separator run (so further separator characters extend that run). -/
def splitSepAux (l : List Char) (acc : List Char) (inSep : Bool) : List (List Char) :=
  match l with
  | [] => [acc.reverse]
  | c :: cs =>
    if isSep c then
      if inSep then splitSepAux cs acc true
      else acc.reverse :: splitSepAux cs [] true
    else splitSepAux cs (c :: acc) false

/-- The `.map(x => x.trim())` step applied to one raw token. -/
def trimTok (t : List Char) : String :=
  jsTrim (String.mk t)

/-- Tokens of `l.split(/[,\s]+/).map(x => x.trim()).filter(Boolean)`
at the character-list level. -/
def tokensOf (l : List Char) : List String :=
  ((splitSepAux l [] false).map trimTok).filter (fun x => x != "")

/-- Model of `s.split(/[,\s]+/).map(x => x.trim()).filter(Boolean)`,
the non-JSON fallback of both role parsers. -/
def splitTokens (s : String) : List String :=
  tokensOf s.data

mutual

/-- Model of `String(v)` for array elements and scalar role values;
nested arrays flatten comma-separated and plain objects print as
`[object Object]`, as in JavaScript. -/
def jsValToString : JsVal → String
  | JsVal.null => "null"
  | JsVal.bool true => "true"
  | JsVal.bool false => "false"
  | JsVal.num n => toString n
  | JsVal.str s => s
  | JsVal.arr xs => jsArrJoin xs
  | JsVal.obj _ => "[object Object]"

/-- Model of `Array.prototype.toString` (comma join; a null/undefined
element prints as the empty string). -/
def jsArrJoin : List JsVal → String
  | [] => ""
  | [JsVal.null] => ""
  | [x] => jsValToString x
  | JsVal.null :: xs => "," ++ jsArrJoin xs
  | x :: xs => jsValToString x ++ "," ++ jsArrJoin xs

end

/-- JavaScript truthiness test (`!v` negated) on the modelled values. -/
def jsFalsy : JsVal → Bool
  | JsVal.null => true
  | JsVal.bool b => !b
  | JsVal.num n => n == 0
  | JsVal.str s => s == ""
  | JsVal.arr _ => false
  | JsVal.obj _ => false

/-- JSON whitespace accepted between tokens by `JSON.parse`. -/
def jsonWs (c : Char) : Bool :=
  c == ' ' || c == '\t' || c == '\n' || c == '\r'

/-- Skip JSON whitespace. -/
def skipWs (l : List Char) : List Char :=
  l.dropWhile jsonWs

/-- Value of a hexadecimal digit, for `\uXXXX` escapes. -/
def hexVal (c : Char) : Option Nat :=
  if c.isDigit then some (c.toNat - 48)
  else if 'A' ≤ c && c ≤ 'F' then some (c.toNat - 55)
  else if 'a' ≤ c && c ≤ 'f' then some (c.toNat - 87)
  else none

/-- Translation of a simple JSON escape character. -/
def jsonEscChar : Char → Option Char
  | 'n' => some '\n'
  | 't' => some '\t'
  | 'r' => some '\r'
  | 'b' => some '\x08'
  | 'f' => some '\x0c'
  | '"' => some '"'
  | '\\' => some '\\'
  | '/' => some '/'
  | _ => none

/-- Parse the remainder of a JSON string literal (the opening quote is
already consumed); returns the decoded string and the rest of the input. -/
def jsonStringAux (l : List Char) (acc : List Char) : Option (String × List Char) :=
  match l with
  | [] => none
  | '"' :: rest => some (String.mk acc.reverse, rest)
  | '\\' :: 'u' :: h1 :: h2 :: h3 :: h4 :: rest =>
    match hexVal h1, hexVal h2, hexVal h3, hexVal h4 with
    | some a, some b, some c, some d =>
      jsonStringAux rest (Char.ofNat (((a * 16 + b) * 16 + c) * 16 + d) :: acc)
    | _, _, _, _ => none
  | '\\' :: c :: rest =>
    match jsonEscChar c with
    | some e => jsonStringAux rest (e :: acc)
    | none => none
  | c :: rest => jsonStringAux rest (c :: acc)

/-- Digits-to-number accumulator. -/
def digitsToNat (l : List Char) : Nat :=
  l.foldl (fun acc c => acc * 10 + (c.toNat - 48)) 0

/-- Parse a JSON number. The JSON numbers this API ever feeds to
`JSON.parse` are integers, so the model covers an optional minus sign and
a digit run; any non-integer number makes the whole parse fail, which the
callers of this model treat exactly like a scalar result (both fall to
the tokenizer fallback). -/
def jsonNumberAux (l : List Char) : Option (Int × List Char) :=
  match l with
  | '-' :: rest =>
    let ds := rest.takeWhile Char.isDigit
    if ds.isEmpty then none
    else some (-(Int.ofNat (digitsToNat ds)), rest.drop ds.length)
  | _ =>
    let ds := l.takeWhile Char.isDigit
    if ds.isEmpty then none
    else some (Int.ofNat (digitsToNat ds), l.drop ds.length)

mutual

/-- Fuel-indexed recursive-descent model of `JSON.parse` values. -/
def jsonValueAux (fuel : Nat) (l : List Char) : Option (JsVal × List Char) :=
  match fuel with
  | 0 => none
  | fuel' + 1 =>
    match skipWs l with
    | [] => none
    | '{' :: rest =>
      match skipWs rest with
      | '}' :: rest' => some (JsVal.obj [], rest')
      | _ => (jsonMembersAux fuel' (skipWs rest) []).map (fun p => (JsVal.obj p.1, p.2))
    | '[' :: rest =>
      match skipWs rest with
      | ']' :: rest' => some (JsVal.arr [], rest')
      | _ => (jsonElemsAux fuel' (skipWs rest) []).map (fun p => (JsVal.arr p.1, p.2))
    | '"' :: rest => (jsonStringAux rest []).map (fun p => (JsVal.str p.1, p.2))
    | 't' :: 'r' :: 'u' :: 'e' :: rest => some (JsVal.bool true, rest)
    | 'f' :: 'a' :: 'l' :: 's' :: 'e' :: rest => some (JsVal.bool false, rest)
    | 'n' :: 'u' :: 'l' :: 'l' :: rest => some (JsVal.null, rest)
    | l' => (jsonNumberAux l').map (fun p => (JsVal.num p.1, p.2))

/-- Elements of a (non-empty) JSON array. -/
def jsonElemsAux (fuel : Nat) (l : List Char) (acc : List JsVal) : Option (List JsVal × List Char) :=
  match fuel with
  | 0 => none
  | fuel' + 1 =>
    match jsonValueAux fuel' l with
    | none => none
    | some (v, rest) =>
      match skipWs rest with
      | ',' :: rest' => jsonElemsAux fuel' rest' (v :: acc)
      | ']' :: rest' => some ((v :: acc).reverse, rest')
      | _ => none

/-- Members of a (non-empty) JSON object. -/
def jsonMembersAux (fuel : Nat) (l : List Char) (acc : List (String × JsVal)) :
    Option (List (String × JsVal) × List Char) :=
  match fuel with
  | 0 => none
  | fuel' + 1 =>
    match skipWs l with
    | '"' :: rest =>
      match jsonStringAux rest [] with
      | none => none
      | some (k, rest1) =>
        match skipWs rest1 with
        | ':' :: rest2 =>
          match jsonValueAux fuel' rest2 with
          | none => none
          | some (v, rest3) =>
            match skipWs rest3 with
            | ',' :: rest4 => jsonMembersAux fuel' rest4 ((k, v) :: acc)
            | '}' :: rest4 => some (((k, v) :: acc).reverse, rest4)
            | _ => none
        | _ => none
    | _ => none

end

/-- Parse a whole input as one JSON document (no trailing garbage). -/
def jsonParseFull (s : String) : Option JsVal :=
  match jsonValueAux (3 * s.length + 3) s.data with
  | some (v, rest) => if (skipWs rest).isEmpty then some v else none
  | none => none

/-- Drop leading and trailing JSON whitespace (tab/LF/CR/space only —
exactly the class `JSON.parse` ignores around a document; JS-only
whitespace such as VT, FF, NBSP or BOM is not removed and makes
`JSON.parse` throw). -/
def jsonWsTrimList (l : List Char) : List Char :=
  ((l.dropWhile jsonWs).reverse.dropWhile jsonWs).reverse

/-- Model of `JSON.parse` wrapped in try/catch, as both role parsers use
it: `none` is a thrown `SyntaxError`. `JSON.parse` ignores surrounding
JSON whitespace (tab/LF/CR/space), which the model realises by removing
it up front; the grammar also skips the same class between tokens. Any
other leading character — including JS-only whitespace like VT — fails
the parse, as in JavaScript. -/
def jsJsonParse (s : String) : Option JsVal :=
  jsonParseFull (String.mk (jsonWsTrimList s.data))

/-- Character-list test that `pre` is an initial segment of `l`
(model of `String.prototype.startsWith`, kept kernel-computable). -/
def listStartsWith (pre l : List Char) : Bool :=
  match pre, l with
  | [], _ => true
  | _ :: _, [] => false
  | p :: ps, c :: cs => p == c && listStartsWith ps cs

/-- Model of `String.prototype.startsWith`. -/
def strStartsWith (s pre : String) : Bool :=
  listStartsWith pre.data s.data

/-- Model of `String.prototype.toLowerCase` on the ASCII role names this
API uses. -/
def jsToLower (s : String) : String :=
  String.mk (s.data.map Char.toLower)

/-- Model of `String.prototype.split(sep)` for a one-character separator
(used with `,` by `parseCsv` and with `-` by `addDaysIso`). -/
def splitOnChar (sep : Char) : List Char → List (List Char)
  | [] => [[]]
  | c :: cs =>
    if c == sep then [] :: splitOnChar sep cs
    else
      match splitOnChar sep cs with
      | t :: ts => (c :: t) :: ts
      | [] => [[c]]

/-- Row of the `users` table as the login path reads it
(`SELECT id_user, username, password, password_hash, roles, last_login,
is_active FROM users ...`); `password`/`password_hash` are `none` when the
column is NULL, `is_active` is kept in the stringified form the handler
compares (`String(user.is_active)`). -/
structure UserRow where
  id_user : Nat
  username : String
  password : Option String
  password_hash : Option String
  roles : JsVal
  last_login : String
  is_active : String

/-- Server `parseRoles(raw)`: null → `[]`; array → stringified elements;
plain object → its keys; otherwise stringify, trim, try `JSON.parse`
(array → elements, truthy object → keys), else split on `[,\s]+` and
drop empty tokens. -/
def parseRoles (raw : JsVal) : List String :=
  match raw with
  | JsVal.null => []
  | JsVal.arr xs => xs.map jsValToString
  | JsVal.obj kvs => kvs.map (fun kv => kv.1)
  | other =>
    let s := jsTrim (jsValToString other)
    if s = "" then []
    else
      match jsJsonParse s with
      | some (JsVal.arr xs) => xs.map jsValToString
      | some (JsVal.obj kvs) => kvs.map (fun kv => kv.1)
      | _ => splitTokens s

/-- The dashboard widget's view of a user: only its `roles` field matters
to the widget's `parseRoles`. -/
structure FrontUser where
  roles : JsVal

/-- Widget `parseRoles(user)`: falsy user or falsy `user.roles` → `[]`;
array → stringified elements; string → `safeJsonParse` then the same
array/object/tokenizer cascade; non-array object → keys; any other type
(numbers, booleans) → `[]`. -/
def parseRolesFront (user : Option FrontUser) : List String :=
  match user with
  | none => []
  | some u =>
    let r := u.roles
    if jsFalsy r then []
    else
      match r with
      | JsVal.arr xs => xs.map jsValToString
      | JsVal.str s =>
        match jsJsonParse s with
        | some (JsVal.arr xs) => xs.map jsValToString
        | some (JsVal.obj kvs) => kvs.map (fun kv => kv.1)
        | _ => splitTokens s
      | JsVal.obj kvs => kvs.map (fun kv => kv.1)
      | _ => []

/-- Server `parseCsv(s)`: split on commas, trim, drop empties. -/
def parseCsv (s : String) : List String :=
  (((splitOnChar ',' s.data).map (fun t => jsTrim (String.mk t)))).filter (fun x => x != "")

/-- The configured write-role allow-list,
`parseCsv(env("WRITE_ROLES", ...)).map(r => r.toLowerCase())`. -/
def cfgWriteRoles (envVal : String) : List String :=
  (parseCsv envVal).map jsToLower

/-- Server `hasWriteRole(user)` with the configuration passed explicitly:
enforcement off → always true; otherwise some configured write role is in
the set of the user's lowercased parsed roles. -/
def hasWriteRole (enforceRoles : Bool) (writeRoles : List String) (user : Option UserRow) : Bool :=
  if !enforceRoles then true
  else
    let roles := (parseRoles (match user with
      | some u => u.roles
      | none => JsVal.null)).map jsToLower
    writeRoles.any (fun r => roles.contains r)

/-- The widget configuration fields consulted by its `canWrite`. -/
structure FrontCfg where
  enforceRoles : Bool
  writeRoles : List String

/-- Widget `canWrite(cfg, user)`: enforcement off → true; no parsed roles
→ false; otherwise some configured write role, lowercased, is among the
user's lowercased roles. -/
def canWrite (cfg : FrontCfg) (user : Option FrontUser) : Bool :=
  if !cfg.enforceRoles then true
  else
    let roles := parseRolesFront user
    if roles.isEmpty then false
    else
      let lowered := roles.map jsToLower
      cfg.writeRoles.any (fun r => lowered.contains (jsToLower r))

/-- Server `passwordLooksHashed(pw)`: structural prefix sniffing for
bcrypt (`$2a$/$2b$/$2y$`) and argon2 (`$argon2id$/$argon2i$`) forms;
the empty string is falsy and never hashed. -/
def passwordLooksHashed (pw : String) : Bool :=
  if pw = "" then false
  else if strStartsWith pw "$2a$" || strStartsWith pw "$2b$" || strStartsWith pw "$2y$" then true
  else if strStartsWith pw "$argon2id$" || strStartsWith pw "$argon2i$" then true
  else false

/-- Collapse the try/catch around the bcrypt comparison: a thrown error
(`Except.error`) becomes the given default. -/
def exceptD (dflt : Bool) : Except Unit Bool → Bool
  | Except.ok b => b
  | Except.error _ => dflt

/-- The comparison the login handler attempts inside its try block:
dedicated hash field first, then the legacy field if it looks hashed,
else plain string equality. `compare` models `bcrypt.compare`, which can
reject (throw). -/
def verifyAttempt (compare : String → String → Except Unit Bool)
    (password stored storedHash : String) : Except Unit Bool :=
  if passwordLooksHashed storedHash then compare password storedHash
  else if passwordLooksHashed stored then compare password stored
  else Except.ok (stored == password)

/-- The `ok` flag the login handler computes: the attempted comparison
with any thrown error caught and turned into a non-match. -/
def loginVerify (compare : String → String → Except Unit Bool)
    (password stored storedHash : String) : Bool :=
  exceptD false (verifyAttempt compare password stored storedHash)

/-- `const stored = user.password || ""`. -/
def storedOf (u : UserRow) : String :=
  u.password.getD ""

/-- `const storedHash = HAS_PASSWORD_HASH_COLUMN ? user.password_hash || "" : ""`. -/
def storedHashOf (hasHashCol : Bool) (u : UserRow) : String :=
  if hasHashCol then u.password_hash.getD "" else ""

/-- `typeof body.username === "string" ? body.username.trim() : ""`. -/
def bodyUsername (raw : JsVal) : String :=
  match raw with
  | JsVal.str s => jsTrim s
  | _ => ""

/-- `typeof body.password === "string" ? body.password : ""`. -/
def bodyPassword (raw : JsVal) : String :=
  match raw with
  | JsVal.str s => s
  | _ => ""

/-- The `user` object returned by a successful login (`publicUser`):
no credential fields. -/
structure PublicUser where
  id_user : Nat
  username : String
  roles : JsVal
  last_login : String
  is_active : String

/-- `publicUser(u)` for a present user row. -/
def publicUser (u : UserRow) : PublicUser :=
  ⟨u.id_user, u.username, u.roles, u.last_login, u.is_active⟩

/-- The signed JWT payload (`jwt.sign({sub, username}, ...)`, signature
and expiry modelled away as the claims here do not touch them). -/
structure Token where
  sub : Nat
  username : String
deriving DecidableEq

/-- Outcome sent by the login route when no error escapes: 400, 401, or
200 with token and public user. -/
inductive LoginResp where
  | badRequest : LoginResp
  | unauthorized : LoginResp
  | success : Token → PublicUser → LoginResp

/-- An UPDATE applied to the `users` table during login. -/
inductive DbWrite where
  | setPasswordHash : Nat → String → DbWrite
  | setPassword : Nat → String → DbWrite
  | setLastLogin : Nat → DbWrite
deriving DecidableEq

/-- Login configuration: the two migration toggles of `CFG`. -/
structure LoginCfg where
  migratePlaintextPasswords : Bool
  migratePlaintextPasswordsOverwrite : Bool

/-- External services of the login route: `bcrypt.compare` (may throw),
`bcrypt.hash(password, 12)` (modelled total) and the success/failure of
each of the three UPDATE queries. -/
structure LoginOracle where
  compareResult : String → String → Except Unit Bool
  hashResult : String → String
  updateHashOk : Bool
  updatePasswordOk : Bool
  updateLastLoginOk : Bool

/-- Tail of the login handler after the migration block: the
`last_login` UPDATE, then `jwt.sign` and the 200 response. A failed
UPDATE rejects (`Except.error`) out of the handler, keeping the writes
applied so far. -/
def finishLogin (o : LoginOracle) (user : UserRow) (ws : List DbWrite) :
    Except Unit LoginResp × List DbWrite :=
  if o.updateLastLoginOk then
    (Except.ok (LoginResp.success ⟨user.id_user, user.username⟩ (publicUser user)),
      ws ++ [DbWrite.setLastLogin user.id_user])
  else (Except.error (), ws)

/-- The `POST /auth/login` handler, from body validation through lookup,
verification, the migration block, `last_login` update and token
issuance. The first component is the response (`Except.error` = a
rejected promise reaching the top-level error handler, which answers 500
with no token); the second lists the UPDATEs that were applied. -/
def loginHandler (cfg : LoginCfg) (hasHashCol : Bool) (o : LoginOracle)
    (usernameRaw passwordRaw : JsVal) (lookup : String → Option UserRow) :
    Except Unit LoginResp × List DbWrite :=
  let username := bodyUsername usernameRaw
  let password := bodyPassword passwordRaw
  if username = "" || password = "" then (Except.ok LoginResp.badRequest, [])
  else
    match lookup username with
    | none => (Except.ok LoginResp.unauthorized, [])
    | some user =>
      if user.is_active = "0" then (Except.ok LoginResp.unauthorized, [])
      else
        let stored := storedOf user
        let storedHash := storedHashOf hasHashCol user
        if loginVerify o.compareResult password stored storedHash then
          if cfg.migratePlaintextPasswords && hasHashCol && !passwordLooksHashed storedHash then
            if o.updateHashOk then
              finishLogin o user [DbWrite.setPasswordHash user.id_user (o.hashResult password)]
            else (Except.error (), [])
          else if cfg.migratePlaintextPasswords && !hasHashCol &&
              cfg.migratePlaintextPasswordsOverwrite && !passwordLooksHashed stored then
            if o.updatePasswordOk then
              finishLogin o user [DbWrite.setPassword user.id_user (o.hashResult password)]
            else (Except.error (), [])
          else finishLogin o user []
        else (Except.ok LoginResp.unauthorized, [])

/-- Math.trunc on a rational (toward zero). -/
def jsTrunc (x : Rat) : Int :=
  if 0 ≤ x then x.floor else x.ceil

/-- Server `clampInt(n, min, max, fallback)`: a non-finite number (NaN,
absent parameter) yields the fallback, else
`Math.max(min, Math.min(max, Math.trunc(x)))`. The argument is the JS
number `Number(raw)`; `none` stands for NaN. -/
def clampInt (n : Option Rat) (lo hi fallback : Int) : Int :=
  match n with
  | none => fallback
  | some x => max lo (min hi (jsTrunc x))

/-- Effective `limit` of the sales listing:
`clampInt(req.query.limit, 1, 100, 20)`. -/
def salesLimit (limitRaw : Option Rat) : Int :=
  clampInt limitRaw 1 100 20

/-- Effective `offset` of the sales listing:
`clampInt(req.query.offset, 0, 1_000_000, 0)`. -/
def salesOffset (offsetRaw : Option Rat) : Int :=
  clampInt offsetRaw 0 1000000 0

/-- Server `isISODate(s)`: the value is a string matching
`/^\d{4}-\d{2}-\d{2}$/` (a purely syntactic test; it does not check that
the month or day is a real calendar month or day). `none` stands for an
absent query parameter. -/
def isISODate (v : Option String) : Bool :=
  match v with
  | none => false
  | some s =>
    match s.data with
    | [y1, y2, y3, y4, d1, m1, m2, d2, a1, a2] =>
      y1.isDigit && y2.isDigit && y3.isDigit && y4.isDigit && d1 == '-' &&
        m1.isDigit && m2.isDigit && d2 == '-' && a1.isDigit && a2.isDigit
    | _ => false

/-- Days since 1970-01-01 of a civil date (proleptic Gregorian calendar,
Howard Hinnant's algorithm), with `m` in 1..12 after normalization. -/
def daysFromCivil (y m d : Int) : Int :=
  let y' := if m ≤ 2 then y - 1 else y
  let era := Int.fdiv y' 400
  let yoe := y' - era * 400
  let mp := Int.emod (m + 9) 12
  let doy := Int.fdiv (153 * mp + 2) 5 + d - 1
  let doe := yoe * 365 + Int.fdiv yoe 4 - Int.fdiv yoe 100 + doy
  era * 146097 + doe - 719468

/-- Civil date (year, month, day) of a day count since 1970-01-01
(inverse of `daysFromCivil`). -/
def civilFromDays (z : Int) : Int × Int × Int :=
  let z' := z + 719468
  let era := Int.fdiv z' 146097
  let doe := z' - era * 146097
  let yoe := Int.fdiv (doe - Int.fdiv doe 1460 + Int.fdiv doe 36524 - Int.fdiv doe 146096) 365
  let y := yoe + era * 400
  let doy := doe - (365 * yoe + Int.fdiv yoe 4 - Int.fdiv yoe 100)
  let mp := Int.fdiv (5 * doy + 2) 153
  let d := doy - Int.fdiv (153 * mp + 2) 5 + 1
  let m := mp + (if mp < 10 then 3 else -9)
  (if m ≤ 2 then y + 1 else y, m, d)

/-- Day count of `Date.UTC(y, m-1, d)`: JavaScript normalizes an
out-of-range month by rolling into adjacent years, normalizes the day by
offsetting from the first of the month, and maps two-digit years into
1900..1999. -/
def utcDaysOf (y m d : Int) : Int :=
  let y' := if 0 ≤ y && y ≤ 99 then y + 1900 else y
  let months := y' * 12 + (m - 1)
  daysFromCivil (Int.fdiv months 12) (Int.emod months 12 + 1) 1 + (d - 1)

/-- `String(n).padStart(2, "0")` for the non-negative month/day fields. -/
def pad2 (n : Int) : String :=
  if 0 ≤ n && n < 10 then "0" ++ toString n else toString n

/-- Format a civil date the way `addDaysIso` does:
unpadded year, two-digit month and day. -/
def formatCivil : Int × Int × Int → String
  | (y, m, d) => toString y ++ "-" ++ pad2 m ++ "-" ++ pad2 d

/-- `Number(component)` for one piece of `iso.split("-")`: the empty
string converts to 0, a digit run to its value, anything else to NaN
(`none`). -/
def numOfComponent (s : String) : Option Int :=
  if s = "" then some 0
  else if s.data.all Char.isDigit then some (Int.ofNat (digitsToNat s.data))
  else none

/-- Server `addDaysIso(iso, deltaDays)`: split on `-`, convert the first
three components with `Number` (a missing component is `undefined`,
which converts to NaN), return null when any of year/month/day is falsy
(0 or NaN), else run the date through `Date.UTC`, add the delta in days,
and re-format. -/
def addDaysIso (iso : String) (deltaDays : Int) : Option String :=
  let comps := (splitOnChar '-' iso.data).map String.mk
  let nth := fun (i : Nat) =>
    match comps.get? i with
    | some s => numOfComponent s
    | none => none
  match nth 0, nth 1, nth 2 with
  | some y, some m, some d =>
    if y = 0 || m = 0 || d = 0 then none
    else some (formatCivil (civilFromDays (utcDaysOf y m d + deltaDays)))
  | _, _, _ => none

/-- The half-open SQL datetime range the dashboard endpoints build. -/
structure SqlRange where
  fromTs : String
  toExcl : String
deriving DecidableEq

/-- Server `rangeToSql(fromIso, toIso)`: null unless both inputs pass
`isISODate`; else `[from 00:00:00, (to + 1 day) 00:00:00)` where the
exclusive end interpolates `addDaysIso(toIso, 1)` (the JS template turns
a null from `addDaysIso` into the string "null"). -/
def rangeToSql (fromIso toIso : Option String) : Option SqlRange :=
  if !isISODate fromIso || !isISODate toIso then none
  else
    match fromIso, toIso with
    | some f, some t =>
      some ⟨f ++ " 00:00:00",
        (match addDaysIso t 1 with
         | some s => s
         | none => "null") ++ " 00:00:00"⟩
    | _, _ => none

/-- Kernel-computable lexicographic strict comparison of char lists
(model of the DATETIME/string comparison MySQL applies to the canonical
`YYYY-MM-DD HH:MM:SS` strings these queries bind). -/
def listLtChar : List Char → List Char → Bool
  | [], [] => false
  | [], _ :: _ => true
  | _ :: _, [] => false
  | a :: as, b :: bs =>
    if a.toNat < b.toNat then true
    else if b.toNat < a.toNat then false
    else listLtChar as bs

/-- Strict string order. -/
def strLt (a b : String) : Bool :=
  listLtChar a.data b.data

/-- Reflexive string order. -/
def strLe (a b : String) : Bool :=
  !strLt b a

/-- Row of the `sales` table as the aggregation queries read it. -/
structure Sale where
  id_sale : Nat
  total_amount : Rat
  notes : Option String
  user_id : Option Nat
  last_updated : String

/-- Row of the `sales_details` table; `total_price` is NULL-able. -/
structure SaleDetail where
  id_sale_detail : Nat
  sale_id : Nat
  product_id : Nat
  quantity : Rat
  price : Rat
  total_price : Option Rat

/-- Row of the `products` table (the aggregation only reads these
columns). -/
structure Product where
  id_product : Nat
  name : Option String
  purchasePrice : Option Rat
  price : Option Rat

/-- Row of the `product_offers` table (the aggregation only reads these
columns). -/
structure Offer where
  id_offer : Nat
  name : String

/-- Row of the `product_offers_products` join table. -/
structure OfferProduct where
  offer_id : Nat
  product_id : Nat
deriving DecidableEq

/-- The WHERE clause `s.last_updated >= ? AND s.last_updated < ?` of all
the range-bounded queries. -/
def saleInRange (r : SqlRange) (s : Sale) : Bool :=
  strLe r.fromTs s.last_updated && strLt s.last_updated r.toExcl

/-- `COALESCE(sd.total_price, sd.price * sd.quantity)`. -/
def lineTotal (d : SaleDetail) : Rat :=
  d.total_price.getD (d.price * d.quantity)

/-- `COALESCE(p.purchasePrice, 0)` through the LEFT JOIN: a missing
product row or a NULL purchase price both give 0. -/
def purchasePriceOf (products : List Product) (pid : Nat) : Rat :=
  match products.find? (fun p => p.id_product == pid) with
  | some p => p.purchasePrice.getD 0
  | none => 0

/-- Bag of `sales_details` rows joined (inner) to an in-range sale, in
SQL bag semantics: one copy per matching sale row. -/
def detailRowsInRange (sales : List Sale) (details : List SaleDetail) (r : SqlRange) :
    List SaleDetail :=
  details.flatMap (fun d =>
    (sales.filter (fun s => s.id_sale == d.sale_id && saleInRange r s)).map (fun _ => d))

/-- The profit aggregate:
`SUM(COALESCE(sd.total_price, sd.price*sd.quantity) -
COALESCE(p.purchasePrice, 0) * sd.quantity)` over in-range line items
(0 for an empty range, via COALESCE of the SQL NULL sum). -/
def profitOf (sales : List Sale) (details : List SaleDetail) (products : List Product)
    (r : SqlRange) : Rat :=
  ((detailRowsInRange sales details r).map (fun d =>
    lineTotal d - purchasePriceOf products d.product_id * d.quantity)).sum

/-- First-occurrence deduplication (the distinct GROUP BY keys). -/
def dedupAux [BEq α] (seen : List α) : List α → List α
  | [] => []
  | x :: xs => if seen.contains x then dedupAux seen xs else x :: dedupAux (x :: seen) xs

/-- Insertion step of the deterministic sort modelling ORDER BY. -/
def insertBy (le : α → α → Bool) (x : α) : List α → List α
  | [] => [x]
  | y :: ys => if le x y then x :: y :: ys else y :: insertBy le x ys

/-- Deterministic (insertion) sort modelling ORDER BY; ties keep an
arbitrary deterministic order, exactly as the spec leaves unspecified. -/
def sortBy (le : α → α → Bool) : List α → List α
  | [] => []
  | x :: xs => insertBy le x (sortBy le xs)

/-- `DATE(s.last_updated)` on the canonical datetime string. -/
def dateOf (s : Sale) : String :=
  String.mk (s.last_updated.data.take 10)

/-- The daily revenue series: revenue summed per calendar day over the
in-range sales, ordered by day ascending; days without sales are absent. -/
def seriesOf (inRange : List Sale) : List (String × Rat) :=
  let days := dedupAux [] (inRange.map dateOf)
  (sortBy strLe days).map (fun day =>
    (day, ((inRange.filter (fun s => dateOf s == day)).map (fun s => s.total_amount)).sum))

/-- One row of the top-product / top-offer rankings; `id` is NULL when
the LEFT JOIN found no product row. -/
structure TopRow where
  id : Option Nat
  name : String
  qty : Rat
  revenue : Rat

/-- The top-products query: group in-range line items by product (LEFT
JOIN, so a vanished product still counts under a synthesized
`Produit #<id>` name), sum quantity and line revenue, order by revenue
descending, first 10. -/
def topProductsOf (sales : List Sale) (details : List SaleDetail) (products : List Product)
    (r : SqlRange) : List TopRow :=
  let rows := detailRowsInRange sales details r
  let pids := dedupAux [] (rows.map (fun d => d.product_id))
  let grouped := pids.map (fun pid =>
    let rs := rows.filter (fun d => d.product_id == pid)
    let p? := products.find? (fun p => p.id_product == pid)
    { id := p?.map (fun p => p.id_product),
      name := match p? with
        | some p => p.name.getD ("Produit #" ++ toString pid)
        | none => "Produit #" ++ toString pid,
      qty := (rs.map (fun d => d.quantity)).sum,
      revenue := (rs.map lineTotal).sum : TopRow })
  (sortBy (fun a b => decide (b.revenue ≤ a.revenue)) grouped).take 10

/-- One in-range line item attributed to one offer containing its
product (the best-effort top-offers join). -/
structure OfferHit where
  offer_id : Nat
  offer_name : String
  detail : SaleDetail

/-- The top-offers query: every in-range line item whose product belongs
to an offer contributes to that offer (double counting across
overlapping offers), grouped by offer, ordered by revenue descending,
first 10. -/
def topOffersOf (sales : List Sale) (details : List SaleDetail) (offers : List Offer)
    (offerProducts : List OfferProduct) (r : SqlRange) : List TopRow :=
  let rows := detailRowsInRange sales details r
  let hits : List OfferHit := rows.flatMap (fun d =>
    (offerProducts.filter (fun op => op.product_id == d.product_id)).flatMap (fun op =>
      (offers.filter (fun o => o.id_offer == op.offer_id)).map (fun o =>
        ⟨o.id_offer, o.name, d⟩)))
  let keys := dedupAux [] (hits.map (fun h => (h.offer_id, h.offer_name)))
  let grouped := keys.map (fun k =>
    let rs := (hits.filter (fun h => h.offer_id == k.1 && h.offer_name == k.2)).map
      (fun h => h.detail)
    { id := some k.1, name := k.2,
      qty := (rs.map (fun d => d.quantity)).sum,
      revenue := (rs.map lineTotal).sum : TopRow })
  (sortBy (fun a b => decide (b.revenue ≤ a.revenue)) grouped).take 10

/-- The shaped `GET /dashboard/summary` 200 body. -/
structure SummaryResp where
  revenue : Rat
  profit : Rat
  salesCount : Nat
  avgTicket : Rat
  series : List (String × Rat)
  topProducts : List TopRow
  topOffers : List TopRow

/-- The `GET /dashboard/summary` handler over the modelled read state:
`none` is the 400 BadRequest answer for an invalid range, otherwise the
aggregates of §4.7. The `avgTicket` division happens only behind the JS
truthiness test `kpis.salesCount ? ... : 0`. -/
def dashboardSummary (sales : List Sale) (details : List SaleDetail) (products : List Product)
    (offers : List Offer) (offerProducts : List OfferProduct) (fromIso toIso : Option String) :
    Option SummaryResp :=
  match rangeToSql fromIso toIso with
  | none => none
  | some r =>
    let inRange := sales.filter (saleInRange r)
    let revenue := (inRange.map (fun s => s.total_amount)).sum
    let salesCount := inRange.length
    some ⟨revenue, profitOf sales details products r, salesCount,
      (if salesCount ≠ 0 then revenue / (salesCount : Rat) else 0),
      seriesOf inRange,
      topProductsOf sales details products r,
      topOffersOf sales details offers offerProducts r⟩

/-- `/^\d+$/.test(String(idRaw)) ? Number(idRaw) : null` for a route id
parameter. -/
def routeId (idRaw : String) : Option Nat :=
  if !idRaw.data.isEmpty && idRaw.data.all Char.isDigit then some (digitsToNat idRaw.data)
  else none

/-- The offers-side database state touched by `DELETE /offers/:id`. -/
structure OffersDbState where
  offers : List Offer
  joins : List OfferProduct

/-- Response of `DELETE /offers/:id`. -/
inductive DeleteResp where
  | badRequest : DeleteResp
  | notFound : DeleteResp
  | okDeleted : DeleteResp
deriving DecidableEq

/-- The `DELETE /offers/:id` handler: validate the id (`!id` also rejects
the all-digits id 0), then inside one transaction delete the join rows,
delete the offer row, commit, and only then inspect `affectedRows` to
choose between 404 and 200. -/
def deleteOfferHandler (st : OffersDbState) (idRaw : String) : DeleteResp × OffersDbState :=
  match routeId idRaw with
  | none => (DeleteResp.badRequest, st)
  | some id =>
    if id = 0 then (DeleteResp.badRequest, st)
    else
      let joins' := st.joins.filter (fun op => op.offer_id != id)
      let affected := st.offers.any (fun o => o.id_offer == id)
      let offers' := st.offers.filter (fun o => o.id_offer != id)
      let st' : OffersDbState := ⟨offers', joins'⟩
      if !affected then (DeleteResp.notFound, st') else (DeleteResp.okDeleted, st')

theorem length_dropWhile_le' (p : α → Bool) (l : List α) :
    (l.dropWhile p).length ≤ l.length := by
  induction l with
  | nil => simp
  | cons c cs ih =>
    rw [List.dropWhile_cons]
    split
    · exact Nat.le_succ_of_le ih
    · exact Nat.le_refl _

theorem dropWhile_self_idem (p : α → Bool) (l : List α) :
    (l.dropWhile p).dropWhile p = l.dropWhile p := by
  induction l with
  | nil => rfl
  | cons c cs ih =>
    rw [List.dropWhile_cons]
    split
    · exact ih
    · exact List.dropWhile_cons_of_neg (by assumption)

theorem dropWhile_sub_decomp (p : α → Bool) (l : List α) :
    ∃ t, t ++ l.dropWhile p = l := by
  induction l with
  | nil => exact ⟨[], rfl⟩
  | cons c cs ih =>
    rw [List.dropWhile_cons]
    split
    · obtain ⟨t, ht⟩ := ih
      exact ⟨c :: t, by simp [ht]⟩
    · exact ⟨[], rfl⟩

theorem dropWhile_eq_self_head_false (p : α → Bool) (c : α) (cs : List α)
    (h : (c :: cs).dropWhile p = c :: cs) : p c = false := by
  cases hp : p c with
  | false => rfl
  | true =>
    rw [List.dropWhile_cons_of_pos hp] at h
    have hlen := length_dropWhile_le' p cs
    rw [h] at hlen
    simp at hlen

theorem trimTwice_eq (p : Char → Bool) (l : List Char) :
    ((((((l.dropWhile p).reverse.dropWhile p).reverse).dropWhile p).reverse).dropWhile p).reverse =
      ((l.dropWhile p).reverse.dropWhile p).reverse := by
  have hAu : (l.dropWhile p).dropWhile p = l.dropWhile p :=
    dropWhile_self_idem p l
  obtain ⟨t, ht⟩ := dropWhile_sub_decomp p (l.dropWhile p).reverse
  have hu : l.dropWhile p =
      ((l.dropWhile p).reverse.dropWhile p).reverse ++ t.reverse := by
    have h2 := congrArg List.reverse ht
    simpa [List.reverse_append] using h2.symm
  have hAv : (((l.dropWhile p).reverse.dropWhile p).reverse).dropWhile p =
      ((l.dropWhile p).reverse.dropWhile p).reverse := by
    cases hv : ((l.dropWhile p).reverse.dropWhile p).reverse with
    | nil => rfl
    | cons c v' =>
      rw [hv] at hu
      have hc : p c = false := by
        apply dropWhile_eq_self_head_false p c (v' ++ t.reverse)
        rw [hu] at hAu
        exact hAu
      exact List.dropWhile_cons_of_neg (by simp [hc])
  rw [hAv, List.reverse_reverse, dropWhile_self_idem]

theorem jsTrimList_idem (l : List Char) : jsTrimList (jsTrimList l) = jsTrimList l := by
  show ((((((l.dropWhile jsIsWs).reverse.dropWhile jsIsWs).reverse).dropWhile
      jsIsWs).reverse).dropWhile jsIsWs).reverse =
    ((l.dropWhile jsIsWs).reverse.dropWhile jsIsWs).reverse
  exact trimTwice_eq jsIsWs l

theorem jsTrim_idem (s : String) : jsTrim (jsTrim s) = jsTrim s := by
  show String.mk (jsTrimList (jsTrimList s.data)) = jsTrim s
  rw [jsTrimList_idem]
  rfl

/-- C1: credential verification precedence. If the dedicated hash field
is classified as hashed, the password is checked by the (bcrypt)
verification function against it; else if the legacy field is classified
as hashed, against that; else by byte equality with the legacy field.
A verification-function failure (thrown error) yields a non-match: the
`ok` flag is total and false on error, so no exception escapes. -/
theorem loginVerifyPrecedence (compare : String → String → Except Unit Bool)
    (p stored storedHash : String) :
    (passwordLooksHashed storedHash = true →
      loginVerify compare p stored storedHash = exceptD false (compare p storedHash)) ∧
    (passwordLooksHashed storedHash = false → passwordLooksHashed stored = true →
      loginVerify compare p stored storedHash = exceptD false (compare p stored)) ∧
    (passwordLooksHashed storedHash = false → passwordLooksHashed stored = false →
      loginVerify compare p stored storedHash = (stored == p)) ∧
    (∀ e, verifyAttempt compare p stored storedHash = Except.error e →
      loginVerify compare p stored storedHash = false) := by
  refine ⟨?_, ?_, ?_, ?_⟩
  · intro h
    simp [loginVerify, verifyAttempt, h]
  · intro h1 h2
    simp [loginVerify, verifyAttempt, h1, h2]
  · intro h1 h2
    simp [loginVerify, verifyAttempt, h1, h2, exceptD]
  · intro e he
    simp [loginVerify, he, exceptD]

theorem loginVerifyPrecedence_witness :
    passwordLooksHashed "$2a$bad" = true ∧
      loginVerify (fun _ _ => Except.error ()) "pw" "legacy" "$2a$bad" = false := by
  constructor
  · decide
  · have h := (loginVerifyPrecedence (fun _ _ => Except.error ()) "pw" "legacy" "$2a$bad").1
      (by decide)
    rw [h]
    rfl

/-- C2: migration safety. Under the (factual) assumption that
`bcrypt.hash` output is classified as hashed, every credential UPDATE the
login handler applies (a) happens only for a found, active user whose
password verification succeeded, and (b) writes a hashed value over a
field whose stored value was not classified as hashed — in particular it
never overwrites an already-hashed value and never writes plaintext. -/
theorem migrationSafety (cfg : LoginCfg) (hasHashCol : Bool) (o : LoginOracle)
    (uRaw pRaw : JsVal) (lookup : String → Option UserRow)
    (hHash : ∀ q, passwordLooksHashed (o.hashResult q) = true) :
    ∀ w ∈ (loginHandler cfg hasHashCol o uRaw pRaw lookup).2,
      (∀ uid v, w = DbWrite.setPasswordHash uid v →
        ∃ user, lookup (bodyUsername uRaw) = some user ∧ uid = user.id_user ∧
          user.is_active ≠ "0" ∧
          loginVerify o.compareResult (bodyPassword pRaw) (storedOf user)
            (storedHashOf hasHashCol user) = true ∧
          passwordLooksHashed (storedHashOf hasHashCol user) = false ∧
          v = o.hashResult (bodyPassword pRaw) ∧ passwordLooksHashed v = true) ∧
      (∀ uid v, w = DbWrite.setPassword uid v →
        ∃ user, lookup (bodyUsername uRaw) = some user ∧ uid = user.id_user ∧
          user.is_active ≠ "0" ∧
          loginVerify o.compareResult (bodyPassword pRaw) (storedOf user)
            (storedHashOf hasHashCol user) = true ∧
          passwordLooksHashed (storedOf user) = false ∧
          v = o.hashResult (bodyPassword pRaw) ∧ passwordLooksHashed v = true) := by
  intro w hw
  unfold loginHandler at hw
  simp only [Bool.or_eq_true, decide_eq_true_eq, Bool.and_eq_true, Bool.not_eq_true'] at hw
  by_cases hbp : bodyUsername uRaw = "" ∨ bodyPassword pRaw = ""
  · rw [if_pos hbp] at hw
    simp at hw
  · rw [if_neg hbp] at hw
    cases hlookup : lookup (bodyUsername uRaw) with
    | none =>
      rw [hlookup] at hw
      simp at hw
    | some user =>
      rw [hlookup] at hw
      dsimp only [] at hw
      by_cases hactive : user.is_active = "0"
      · rw [if_pos hactive] at hw
        simp at hw
      · rw [if_neg hactive] at hw
        by_cases hverify : loginVerify o.compareResult (bodyPassword pRaw) (storedOf user)
            (storedHashOf hasHashCol user) = true
        · rw [if_pos hverify] at hw
          by_cases hb1 : (cfg.migratePlaintextPasswords = true ∧ hasHashCol = true) ∧
              passwordLooksHashed (storedHashOf hasHashCol user) = false
          · rw [if_pos hb1] at hw
            by_cases hup : o.updateHashOk = true
            · rw [if_pos hup] at hw
              unfold finishLogin at hw
              by_cases hll : o.updateLastLoginOk = true
              · rw [if_pos hll] at hw
                simp only [List.singleton_append] at hw
                rcases List.mem_cons.mp hw with hw1 | hw1
                · subst hw1
                  constructor
                  · intro uid v hv
                    cases hv
                    exact ⟨user, rfl, rfl, hactive, hverify, hb1.2, rfl, hHash _⟩
                  · intro uid v hv
                    cases hv
                · have hw2 := List.mem_singleton.mp hw1
                  subst hw2
                  constructor <;> intro uid v hv <;> cases hv
              · rw [if_neg hll] at hw
                have hw2 := List.mem_singleton.mp hw
                subst hw2
                constructor
                · intro uid v hv
                  cases hv
                  exact ⟨user, rfl, rfl, hactive, hverify, hb1.2, rfl, hHash _⟩
                · intro uid v hv
                  cases hv
            · rw [if_neg hup] at hw
              simp at hw
          · rw [if_neg hb1] at hw
            by_cases hb2 : ((cfg.migratePlaintextPasswords = true ∧ hasHashCol = false) ∧
                cfg.migratePlaintextPasswordsOverwrite = true) ∧
                passwordLooksHashed (storedOf user) = false
            · rw [if_pos hb2] at hw
              by_cases hup : o.updatePasswordOk = true
              · rw [if_pos hup] at hw
                unfold finishLogin at hw
                by_cases hll : o.updateLastLoginOk = true
                · rw [if_pos hll] at hw
                  simp only [List.singleton_append] at hw
                  rcases List.mem_cons.mp hw with hw1 | hw1
                  · subst hw1
                    constructor
                    · intro uid v hv
                      cases hv
                    · intro uid v hv
                      cases hv
                      exact ⟨user, rfl, rfl, hactive, hverify, hb2.2, rfl, hHash _⟩
                  · have hw2 := List.mem_singleton.mp hw1
                    subst hw2
                    constructor <;> intro uid v hv <;> cases hv
                · rw [if_neg hll] at hw
                  have hw2 := List.mem_singleton.mp hw
                  subst hw2
                  constructor
                  · intro uid v hv
                    cases hv
                  · intro uid v hv
                    cases hv
                    exact ⟨user, rfl, rfl, hactive, hverify, hb2.2, rfl, hHash _⟩
              · rw [if_neg hup] at hw
                simp at hw
            · rw [if_neg hb2] at hw
              unfold finishLogin at hw
              by_cases hll : o.updateLastLoginOk = true
              · rw [if_pos hll] at hw
                simp only [List.nil_append] at hw
                have hw2 := List.mem_singleton.mp hw
                subst hw2
                constructor <;> intro uid v hv <;> cases hv
              · rw [if_neg hll] at hw
                simp at hw
        · rw [if_neg hverify] at hw
          simp at hw

theorem migrationSafety_witness :
    ∃ user : UserRow,
      (fun u => if u = "alice"
        then some (⟨1, "alice", some "pw", none, JsVal.null, "", "1"⟩ : UserRow)
        else none) (bodyUsername (JsVal.str "alice")) = some user ∧
      1 = user.id_user ∧ user.is_active ≠ "0" ∧
      loginVerify (fun _ _ => Except.ok false) (bodyPassword (JsVal.str "pw")) (storedOf user)
        (storedHashOf true user) = true ∧
      passwordLooksHashed (storedHashOf true user) = false ∧
      "$2b$12$demo" = "$2b$12$demo" ∧ passwordLooksHashed "$2b$12$demo" = true := by
  have h := migrationSafety ⟨true, false⟩ true
    ⟨fun _ _ => Except.ok false, fun _ => "$2b$12$demo", true, true, true⟩
    (JsVal.str "alice") (JsVal.str "pw")
    (fun u => if u = "alice"
      then some (⟨1, "alice", some "pw", none, JsVal.null, "", "1"⟩ : UserRow)
      else none)
    (fun q => rfl)
    (DbWrite.setPasswordHash 1 "$2b$12$demo") (by decide)
  exact h.1 1 "$2b$12$demo" rfl

/-- C3 counterexample: with migration enabled, a plaintext-stored user,
and a failing `UPDATE users SET password_hash = ...`, the login request
does not succeed: the rejected promise escapes the handler (answered as
500 by the top-level error handler) and no token is issued — contrary to
the claim that a migration-write failure leaves login successful. -/
theorem migrationWriteFailureFailsLogin_cex :
    loginHandler ⟨true, false⟩ true
      ⟨fun _ _ => Except.error (), fun _ => "$2b$12$demo", false, true, true⟩
      (JsVal.str "alice") (JsVal.str "pw")
      (fun u => if u = "alice"
        then some (⟨1, "alice", some "pw", none, JsVal.null, "", "1"⟩ : UserRow)
        else none) =
      (Except.error (), []) := by
  rfl

/-- C3 (amended): migration is not best-effort in this code. For every
login where verification succeeds and a migration branch is taken, a
failure of that UPDATE makes the whole request fail (the error
propagates; no token and no user are returned, and no write is
applied). -/
theorem migrationFailurePropagates (cfg : LoginCfg) (hasHashCol : Bool) (o : LoginOracle)
    (uRaw pRaw : JsVal) (lookup : String → Option UserRow) (user : UserRow)
    (hbp : ¬(bodyUsername uRaw = "" ∨ bodyPassword pRaw = ""))
    (hlookup : lookup (bodyUsername uRaw) = some user)
    (hactive : ¬user.is_active = "0")
    (hverify : loginVerify o.compareResult (bodyPassword pRaw) (storedOf user)
      (storedHashOf hasHashCol user) = true)
    (hbranch :
      ((cfg.migratePlaintextPasswords = true ∧ hasHashCol = true) ∧
        passwordLooksHashed (storedHashOf hasHashCol user) = false) ∧ o.updateHashOk = false ∨
      ¬((cfg.migratePlaintextPasswords = true ∧ hasHashCol = true) ∧
          passwordLooksHashed (storedHashOf hasHashCol user) = false) ∧
        ((cfg.migratePlaintextPasswords = true ∧ hasHashCol = false) ∧
          cfg.migratePlaintextPasswordsOverwrite = true) ∧
        passwordLooksHashed (storedOf user) = false ∧ o.updatePasswordOk = false) :
    loginHandler cfg hasHashCol o uRaw pRaw lookup = (Except.error (), []) := by
  unfold loginHandler
  simp only [Bool.or_eq_true, decide_eq_true_eq, Bool.and_eq_true, Bool.not_eq_true']
  rw [if_neg hbp, hlookup]
  dsimp only []
  rw [if_neg hactive, if_pos hverify]
  rcases hbranch with ⟨hb1, hup⟩ | ⟨hnb1, hb2, hst, hup⟩
  · rw [if_pos hb1, if_neg (by simp [hup])]
  · rw [if_neg hnb1, if_pos ⟨hb2, hst⟩, if_neg (by simp [hup])]

theorem migrationFailurePropagates_witness :
    loginHandler ⟨true, true⟩ false
      ⟨fun _ _ => Except.error (), fun _ => "$2b$12$demo", true, false, true⟩
      (JsVal.str "bob") (JsVal.str "pw")
      (fun u => if u = "bob"
        then some (⟨2, "bob", some "pw", none, JsVal.null, "", "1"⟩ : UserRow)
        else none) =
      (Except.error (), []) :=
  migrationFailurePropagates ⟨true, true⟩ false
    ⟨fun _ _ => Except.error (), fun _ => "$2b$12$demo", true, false, true⟩
    (JsVal.str "bob") (JsVal.str "pw")
    (fun u => if u = "bob"
      then some (⟨2, "bob", some "pw", none, JsVal.null, "", "1"⟩ : UserRow)
      else none)
    ⟨2, "bob", some "pw", none, JsVal.null, "", "1"⟩
    (by decide) rfl (by decide) (by decide)
    (Or.inr ⟨by decide, ⟨⟨rfl, rfl⟩, rfl⟩, by decide, rfl⟩)

/-- C5 counterexample: the three role encodings do not all normalize to
the singleton set containing "admin" — the CSV string "admin,manager"
parses to ["admin", "manager"], which differs from what the array
encoding yields. -/
theorem roleCsvNotSingleton_cex :
    parseRoles (JsVal.str "admin,manager") = ["admin", "manager"] ∧
      parseRoles (JsVal.str "admin,manager") ≠ parseRoles (JsVal.arr [JsVal.str "admin"]) ∧
      "manager" ∈ parseRoles (JsVal.str "admin,manager") ∧
      "manager" ∉ parseRoles (JsVal.arr [JsVal.str "admin"]) := by
  refine ⟨by decide, by decide, by decide, by decide⟩

/-- C5 (amended): parsing the native array ["admin"] and the JSON-object
string yield the same normalized role set containing exactly "admin",
while the CSV string "admin,manager" yields the two-element set
containing "admin" and "manager". -/
theorem roleEncodingsNormalize :
    parseRoles (JsVal.arr [JsVal.str "admin"]) = ["admin"] ∧
      parseRoles (JsVal.str "\x7b\"admin\":true\x7d") = ["admin"] ∧
      parseRoles (JsVal.str "admin,manager") = ["admin", "manager"] := by
  refine ⟨by decide, by decide, by decide⟩

/-- C4 counterexample: "2024-13-01" matches the syntactic pattern
`\d{4}-\d{2}-\d{2}`, so the range validation does not reject it: the
dashboard endpoint does not answer 400 BadRequest for it, contrary to the
claim. -/
theorem badMonthAccepted_cex :
    (rangeToSql (some "2024-13-01") (some "2024-01-03")).isSome = true ∧
      (dashboardSummary [] [] [] [] [] (some "2024-13-01") (some "2024-01-03")).isSome = true ∧
      rangeToSql (some "2024-13-01") (some "2024-13-01") =
        some ⟨"2024-13-01 00:00:00", "2025-01-02 00:00:00"⟩ := by
  refine ⟨by decide, by rfl, by decide⟩

/-- C4 (amended): if both inputs match the calendar-date pattern
`YYYY-MM-DD` the resolved range is the half-open interval
`[from 00:00:00, (to + 1 day) 00:00:00)` — e.g. resolving
2024-01-01..2024-01-03 yields `[2024-01-01 00:00:00, 2024-01-04
00:00:00)` — and otherwise the range-requiring endpoint fails with
BadRequest; the pattern test is purely syntactic, so "01/01/2024" fails
BadRequest but "2024-13-01" is accepted (resolved with JavaScript Date
month rollover, per the counterexample). -/
theorem rangeResolution (f t : Option String) (sales : List Sale) (details : List SaleDetail)
    (products : List Product) (offers : List Offer) (ops : List OfferProduct) :
    (isISODate f = false ∨ isISODate t = false →
      rangeToSql f t = none ∧
        dashboardSummary sales details products offers ops f t = none) ∧
    (∀ sf st, f = some sf → t = some st → isISODate f = true → isISODate t = true →
      rangeToSql f t = some ⟨sf ++ " 00:00:00",
        (match addDaysIso st 1 with
         | some s => s
         | none => "null") ++ " 00:00:00"⟩) ∧
    rangeToSql (some "2024-01-01") (some "2024-01-03") =
      some ⟨"2024-01-01 00:00:00", "2024-01-04 00:00:00"⟩ ∧
    rangeToSql (some "01/01/2024") (some "2024-01-03") = none := by
  refine ⟨?_, ?_, by decide, by decide⟩
  · intro h
    have hr : rangeToSql f t = none := by
      unfold rangeToSql
      rcases h with h | h <;> simp [h]
    refine ⟨hr, ?_⟩
    unfold dashboardSummary
    rw [hr]
  · intro sf st hf ht h1 h2
    subst hf
    subst ht
    unfold rangeToSql
    simp [h1, h2]

theorem rangeResolution_witness :
    rangeToSql (some "01/01/2024") (some "2024-01-03") = none ∧
      dashboardSummary [] [] [] [] [] (some "01/01/2024") (some "2024-01-03") = none :=
  (rangeResolution (some "01/01/2024") (some "2024-01-03") [] [] [] [] []).1
    (Or.inl (by decide))

/-- C6: write gating. The server's `hasWriteRole` is true whenever role
enforcement is disabled, and with enforcement enabled it is true exactly
when the configured allow-list (lowercased at configuration parse, as
`CFG.writeRoles` is) intersects the user's parsed, lowercased role set.
The widget's `canWrite` satisfies the same contract for its configured
allow-list (which it lowercases at the comparison; the hypothesis that
the configured names are lowercase matches the widget's default
"admin,manager" configuration). -/
theorem canWriteGate :
    (∀ (wr : List String) (user : Option UserRow), hasWriteRole false wr user = true) ∧
    (∀ (envVal : String) (user : Option UserRow),
      hasWriteRole true (cfgWriteRoles envVal) user = true ↔
        ∃ r, r ∈ cfgWriteRoles envVal ∧
          r ∈ (parseRoles (match user with
            | some u => u.roles
            | none => JsVal.null)).map jsToLower) ∧
    (∀ (cfg : FrontCfg) (user : Option FrontUser), cfg.enforceRoles = false →
      canWrite cfg user = true) ∧
    (∀ (cfg : FrontCfg) (user : Option FrontUser), cfg.enforceRoles = true →
      (∀ r ∈ cfg.writeRoles, jsToLower r = r) →
      (canWrite cfg user = true ↔
        ∃ r, r ∈ cfg.writeRoles ∧ r ∈ (parseRolesFront user).map jsToLower)) := by
  refine ⟨?_, ?_, ?_, ?_⟩
  · intro wr user
    simp [hasWriteRole]
  · intro envVal user
    simp only [hasWriteRole, Bool.not_true, Bool.false_eq_true, if_false, List.any_eq_true]
    constructor
    · rintro ⟨r, hr, hc⟩
      exact ⟨r, hr, (List.elem_iff).mp hc⟩
    · rintro ⟨r, hr, hm⟩
      exact ⟨r, hr, (List.elem_iff).mpr hm⟩
  · intro cfg user h
    simp [canWrite, h]
  · intro cfg user h hlower
    simp only [canWrite, h, Bool.not_true, Bool.false_eq_true, if_false]
    by_cases hemp : (parseRolesFront user).isEmpty = true
    · rw [if_pos hemp]
      rw [List.isEmpty_iff] at hemp
      simp [hemp]
    · rw [if_neg hemp]
      simp only [List.any_eq_true]
      constructor
      · rintro ⟨r, hr, hc⟩
        refine ⟨r, hr, ?_⟩
        have := (List.elem_iff).mp hc
        rwa [hlower r hr] at this
      · rintro ⟨r, hr, hm⟩
        refine ⟨r, hr, ?_⟩
        apply (List.elem_iff).mpr
        rwa [hlower r hr]

theorem canWriteGate_witness :
    hasWriteRole true (cfgWriteRoles "admin,manager")
      (some ⟨1, "u", none, none, JsVal.arr [JsVal.str "Admin"], "", "1"⟩) = true ∧
    canWrite ⟨true, ["admin", "manager"]⟩ (some ⟨JsVal.str "manager"⟩) = true := by
  constructor
  · exact (canWriteGate.2.1 "admin,manager" _).2 ⟨"admin", by decide, by decide⟩
  · exact (canWriteGate.2.2.2 ⟨true, ["admin", "manager"]⟩ _ rfl (by decide)).2
      ⟨"manager", by decide, by decide⟩

/-- C7: KPI contract. For every database state and resolved range, the
summary's revenue is the sum of the total amounts of the in-range sales
(zero when none), salesCount is their count, and avgTicket is
revenue/salesCount when the count is non-zero and 0 otherwise — the
division is guarded by the count test and never performed with a zero
count. -/
theorem summaryKpis (sales : List Sale) (details : List SaleDetail) (products : List Product)
    (offers : List Offer) (ops : List OfferProduct) (f t : Option String) (r : SqlRange)
    (hr : rangeToSql f t = some r) :
    ∃ resp, dashboardSummary sales details products offers ops f t = some resp ∧
      resp.revenue = ((sales.filter (saleInRange r)).map (fun s => s.total_amount)).sum ∧
      resp.salesCount = (sales.filter (saleInRange r)).length ∧
      (sales.filter (saleInRange r) = [] → resp.revenue = 0) ∧
      (resp.salesCount = 0 → resp.avgTicket = 0) ∧
      (resp.salesCount ≠ 0 →
        resp.avgTicket = resp.revenue / (resp.salesCount : Rat)) := by
  unfold dashboardSummary
  rw [hr]
  refine ⟨_, rfl, rfl, rfl, ?_, ?_, ?_⟩
  · intro h
    simp [h]
  · intro h
    simp only at h ⊢
    rw [if_neg (by simp [h])]
  · intro h
    simp only at h ⊢
    rw [if_pos (by simpa using h)]

theorem summaryKpis_witness :
    ∃ resp, dashboardSummary
      [⟨1, 100, none, none, "2024-01-01 10:00:00"⟩, ⟨2, 50, none, none, "2024-01-02 09:00:00"⟩]
      [] [] [] [] (some "2024-01-01") (some "2024-01-02") = some resp ∧
      resp.revenue = 150 ∧ resp.salesCount = 2 ∧ resp.avgTicket = 75 := by
  obtain ⟨resp, hsome, hrev, hcount, _, _, havg⟩ := summaryKpis
    [⟨1, 100, none, none, "2024-01-01 10:00:00"⟩, ⟨2, 50, none, none, "2024-01-02 09:00:00"⟩]
    [] [] [] [] (some "2024-01-01") (some "2024-01-02")
    ⟨"2024-01-01 00:00:00", "2024-01-03 00:00:00"⟩ (by decide)
  have hfil : ([⟨1, 100, none, none, "2024-01-01 10:00:00"⟩,
      ⟨2, 50, none, none, "2024-01-02 09:00:00"⟩] : List Sale).filter
      (saleInRange ⟨"2024-01-01 00:00:00", "2024-01-03 00:00:00"⟩) =
      [⟨1, 100, none, none, "2024-01-01 10:00:00"⟩,
        ⟨2, 50, none, none, "2024-01-02 09:00:00"⟩] := by
    rfl
  rw [hfil] at hrev hcount
  have hrev2 : resp.revenue = 150 := by
    rw [hrev]
    norm_num [List.map_cons, List.map_nil, List.sum_cons, List.sum_nil]
  have hcount2 : resp.salesCount = 2 := by
    rw [hcount]
    rfl
  refine ⟨resp, hsome, hrev2, hcount2, ?_⟩
  have h3 := havg (by rw [hcount2]; exact (by norm_num))
  rw [h3, hrev2, hcount2]
  norm_num

/-- C8: pagination clamping. The effective sales-listing limit is the
given value clamped to [1, 100] with default 20 when the parameter is
absent (NaN), and the effective offset is the given value clamped to
[0, 1000000] with default 0 when absent; in particular an integer-valued
parameter is clamped exactly, so limit 500 becomes 100 and offset -5
becomes 0. -/
theorem paginationClamp (lr orr : Option Rat) :
    1 ≤ salesLimit lr ∧ salesLimit lr ≤ 100 ∧
      (lr = none → salesLimit lr = 20) ∧
      (∀ k : Int, lr = some (k : Rat) → salesLimit lr = max 1 (min 100 k)) ∧
      0 ≤ salesOffset orr ∧ salesOffset orr ≤ 1000000 ∧
      (orr = none → salesOffset orr = 0) ∧
      (∀ k : Int, orr = some (k : Rat) → salesOffset orr = max 0 (min 1000000 k)) := by
  have htrunc : ∀ k : Int, jsTrunc (k : Rat) = k := by
    intro k
    have hden : ((k : Rat)).den = 1 := Rat.den_intCast k
    have hnum : ((k : Rat)).num = k := Rat.num_intCast k
    unfold jsTrunc
    split
    · simp [Rat.floor, hden, hnum]
    · simp [Rat.ceil, hden, hnum]
  refine ⟨?_, ?_, ?_, ?_, ?_, ?_, ?_, ?_⟩
  · cases lr with
    | none => norm_num [salesLimit, clampInt]
    | some x =>
      simp only [salesLimit, clampInt]
      omega
  · cases lr with
    | none => norm_num [salesLimit, clampInt]
    | some x =>
      simp only [salesLimit, clampInt]
      omega
  · intro h
    rw [h]
    rfl
  · intro k h
    rw [h]
    simp only [salesLimit, clampInt, htrunc k]
  · cases orr with
    | none => norm_num [salesOffset, clampInt]
    | some x =>
      simp only [salesOffset, clampInt]
      omega
  · cases orr with
    | none => norm_num [salesOffset, clampInt]
    | some x =>
      simp only [salesOffset, clampInt]
      omega
  · intro h
    rw [h]
    rfl
  · intro k h
    rw [h]
    simp only [salesOffset, clampInt, htrunc k]

theorem paginationClamp_witness :
    salesLimit (some ((500 : Int) : Rat)) = 100 ∧
      salesOffset (some ((-5 : Int) : Rat)) = 0 ∧
      salesLimit none = 20 ∧ salesOffset none = 0 := by
  refine ⟨?_, ?_, ?_, ?_⟩
  · have h := (paginationClamp (some ((500 : Int) : Rat)) none).2.2.2.1 500 rfl
    rw [h]
    decide
  · have h := (paginationClamp none (some ((-5 : Int) : Rat))).2.2.2.2.2.2.2 (-5) rfl
    rw [h]
    decide
  · exact (paginationClamp none none).2.2.1 rfl
  · exact (paginationClamp none none).2.2.2.2.2.2.1 rfl

/-- C10: offer deletion is not atomic with its NotFound outcome. For a
well-formed non-zero id with no matching offer row, the handler still
deletes (and commits) every `product_offers_products` join row with that
offer id before answering 404; when such join rows exist, the 404
response therefore does not mean the state was left unchanged. -/
theorem offerDeleteNotFoundStillDeletes (st : OffersDbState) (idRaw : String) (id : Nat)
    (hid : routeId idRaw = some id) (hnz : id ≠ 0)
    (habsent : ∀ o ∈ st.offers, o.id_offer ≠ id) :
    (deleteOfferHandler st idRaw).1 = DeleteResp.notFound ∧
      (deleteOfferHandler st idRaw).2.joins =
        st.joins.filter (fun op => op.offer_id != id) ∧
      (deleteOfferHandler st idRaw).2.offers = st.offers ∧
      ((∃ op ∈ st.joins, op.offer_id = id) → (deleteOfferHandler st idRaw).2 ≠ st) := by
  have haff : st.offers.any (fun o => o.id_offer == id) = false := by
    rw [List.any_eq_false]
    intro o ho
    simp [habsent o ho]
  have hoff : st.offers.filter (fun o => o.id_offer != id) = st.offers := by
    apply List.filter_eq_self.mpr
    intro o ho
    simp [habsent o ho]
  unfold deleteOfferHandler
  rw [hid]
  dsimp only []
  rw [if_neg hnz, haff]
  refine ⟨rfl, rfl, hoff, ?_⟩
  rintro ⟨op, hop, hopid⟩ heq
  have hjoins : st.joins.filter (fun op => op.offer_id != id) = st.joins :=
    congrArg OffersDbState.joins heq
  rw [← hjoins] at hop
  have := (List.mem_filter.mp hop).2
  simp [hopid] at this

theorem offerDeleteNotFoundStillDeletes_witness :
    (deleteOfferHandler ⟨[], [⟨7, 9⟩]⟩ "7").1 = DeleteResp.notFound ∧
      (deleteOfferHandler ⟨[], [⟨7, 9⟩]⟩ "7").2.joins = [] ∧
      (deleteOfferHandler ⟨[], [⟨7, 9⟩]⟩ "7").2 ≠ (⟨[], [⟨7, 9⟩]⟩ : OffersDbState) := by
  obtain ⟨h1, h2, _, h4⟩ := offerDeleteNotFoundStillDeletes ⟨[], [⟨7, 9⟩]⟩ "7" 7
    (by decide) (by decide) (by intro o ho; simp at ho)
  refine ⟨h1, ?_, h4 ⟨⟨7, 9⟩, by decide, rfl⟩⟩
  rw [h2]
  decide
